import Mathlib

set_option linter.unusedSectionVars false
set_option linter.unusedVariables false

/-!
Shallow embedding of `src/draw_view.py` (class `DrawView`), a widget that maps
world coordinates to device coordinates and draws styled primitives.

Geometry is modelled over an arbitrary linear ordered field (instantiated at
`ℚ` for executable witnesses and at `ℝ` where the code takes a square root).
The Qt affine transform is modelled by its diagonal-plus-translation part,
which is the only form this code ever builds (it composes `translate` and
`scale` calls only; no rotation or shear).
-/

namespace DrawView

/-- Color values as used through `qtpy` (`Qt.black`, `Qt.white`, ...). -/
inductive QtColor where
  | black
  | white
  | red
  | other (n : ℕ)
deriving DecidableEq

/-- Pen line style: `Qt.SolidLine` (the default) or `Qt.NoPen`. -/
inductive PenStyle where
  | solidLine
  | noPen
deriving DecidableEq

/-- Brush style: solid color fill or `Qt.NoBrush`. -/
inductive BrushStyle where
  | solidPattern
  | noBrush
deriving DecidableEq

structure QPen (α : Type) where
  color : QtColor
  width : α
  style : PenStyle
deriving DecidableEq

structure QBrush where
  color : QtColor
  style : BrushStyle
deriving DecidableEq

@[ext]
structure QPointF (α : Type) where
  x : α
  y : α
deriving DecidableEq

structure QRectF (α : Type) where
  xmin : α
  ymin : α
  w : α
  h : α
deriving DecidableEq

/-- The affine transforms `DrawView` builds: diagonal scale plus translation.
Maps `(x, y)` to `(m11 * x + dx, m22 * y + dy)`. -/
structure QTransform (α : Type) where
  m11 : α
  m22 : α
  dx : α
  dy : α
deriving DecidableEq

variable {α : Type} [LinearOrderedField α]

def QRectF.width (r : QRectF α) : α := r.w

def QRectF.height (r : QRectF α) : α := r.h

def QRectF.center (r : QRectF α) : QPointF α := ⟨r.xmin + r.w / 2, r.ymin + r.h / 2⟩

def QTransform.identity : QTransform α := ⟨1, 1, 0, 0⟩

/-- `QTransform.translate(a, b)`: in Qt, operations composed later are applied
to mapped points first, so the translation is folded through the scale part. -/
def QTransform.translate (t : QTransform α) (a b : α) : QTransform α :=
  { t with dx := t.dx + t.m11 * a, dy := t.dy + t.m22 * b }

/-- `QTransform.scale(sx, sy)`. -/
def QTransform.scaleXY (t : QTransform α) (sx sy : α) : QTransform α :=
  { t with m11 := t.m11 * sx, m22 := t.m22 * sy }

/-- `QTransform.map(QPointF)`. -/
def QTransform.map (t : QTransform α) (p : QPointF α) : QPointF α :=
  ⟨t.m11 * p.x + t.dx, t.m22 * p.y + t.dy⟩

/-- `QTransform.inverted()`: the inverse transform and a success flag; Qt
returns the identity with `false` when the matrix is singular. -/
def QTransform.inverted (t : QTransform α) : QTransform α × Bool :=
  if t.m11 = 0 ∨ t.m22 = 0 then (QTransform.identity, false)
  else (⟨1 / t.m11, 1 / t.m22, -t.dx / t.m11, -t.dy / t.m22⟩, true)

def QPen.setColor (p : QPen α) (c : QtColor) : QPen α := { p with color := c }

def QPen.setWidth (p : QPen α) (w : α) : QPen α := { p with width := w }

def QBrush.setColor (b : QBrush) (c : QtColor) : QBrush := { b with color := c }

/-- `QPen(Qt.NoPen)`: black, width 0, draws no line. -/
def no_stroke_pen : QPen α := ⟨QtColor.black, 0, PenStyle.noPen⟩

/-- `QBrush(Qt.NoBrush)`. -/
def no_fill_brush : QBrush := ⟨QtColor.black, BrushStyle.noBrush⟩

/-- A freshly constructed `QPainter`'s default pen: solid black, width 0. -/
def default_pen : QPen α := ⟨QtColor.black, 0, PenStyle.solidLine⟩

/-- A freshly constructed `QPainter`'s default brush: `Qt.NoBrush`. -/
def default_brush : QBrush := ⟨QtColor.black, BrushStyle.noBrush⟩

/-- Which pen object `self.current_pen` references; `stroke_pen` and the
constant `no_stroke_pen` are the only objects ever assigned to it. -/
inductive PenRef where
  | strokePenR
  | noStrokePenR
deriving DecidableEq

/-- Which brush object `self.current_brush` references. -/
inductive BrushRef where
  | fillBrushR
  | noFillBrushR
deriving DecidableEq

/-- The mutable state of a `DrawView` instance. `viewport_width` and
`viewport_height` are `QWidget.width()`/`height()`, non-negative integers
owned by the host. `font_color` is `__font_color`, assigned only by the
`text_color` setter (`none` models the attribute not existing yet), while
`text_color_init` is the distinct `__text_color` field written in `__init__`
and read by nothing. -/
structure DrawViewState (α : Type) where
  world_bounds : QRectF α
  viewport_width : ℕ
  viewport_height : ℕ
  transform : QTransform α
  scale : α
  stroke_color : QtColor
  fill_color : QtColor
  stroke_width : α
  text_color_init : QtColor
  font_color : Option QtColor
  stroke : Bool
  fill : Bool
  stroke_pen : QPen α
  fill_brush : QBrush
  current_pen : PenRef
  current_brush : BrushRef
  text_pen : QPen α
  attribute_stack : List (QtColor × QtColor × α × QtColor × Bool × Bool)
deriving DecidableEq

/-- `__update_transform`: recompute scale and transform; returns with the prior
state untouched when a viewport dimension is falsy (widget dimensions are
non-negative integers, so falsy means zero). -/
def update_transform (st : DrawViewState α) : DrawViewState α :=
  if st.viewport_width = 0 ∨ st.viewport_height = 0 then st
  else
    let vw : α := st.viewport_width
    let vh : α := st.viewport_height
    let scale_x := vw / st.world_bounds.width
    let scale_y := vh / st.world_bounds.height
    let s := min scale_x scale_y
    let t := ((QTransform.identity.translate (vw / 2) (vh / 2)).scaleXY s (-s)).translate
      (-st.world_bounds.center.x) (-st.world_bounds.center.y)
    { st with transform := t, scale := s }

/-- `window_to_world(x, y)`: map through the exact inverse transform. -/
def window_to_world (st : DrawViewState α) (x y : α) : QPointF α :=
  (st.transform.inverted).1.map ⟨x, y⟩

/-- `world_to_window(x, y)`. -/
def world_to_window (st : DrawViewState α) (x y : α) : QPointF α :=
  st.transform.map ⟨x, y⟩

/-- `set_world_bounds(xmin, ymin, width, height)`. -/
def set_world_bounds (st : DrawViewState α) (xmin ymin width height : α) : DrawViewState α :=
  update_transform { st with world_bounds := ⟨xmin, ymin, width, height⟩ }

/-- The `stroke_color` property setter. -/
def stroke_color_set (st : DrawViewState α) (c : QtColor) : DrawViewState α :=
  { st with stroke_color := c, stroke_pen := st.stroke_pen.setColor c }

/-- The `fill_color` property setter. -/
def fill_color_set (st : DrawViewState α) (c : QtColor) : DrawViewState α :=
  { st with fill_color := c, fill_brush := st.fill_brush.setColor c }

/-- The `stroke_width` property setter. -/
def stroke_width_set (st : DrawViewState α) (w : α) : DrawViewState α :=
  { st with stroke_width := w, stroke_pen := st.stroke_pen.setWidth w }

/-- The `text_color` property setter: assigns `__font_color`. -/
def text_color_set (st : DrawViewState α) (c : QtColor) : DrawViewState α :=
  { st with font_color := some c, text_pen := st.text_pen.setColor c }

/-- The `text_color` property getter: returns `__font_color`; `none` models
the `AttributeError` raised when that field was never assigned. -/
def text_color_get (st : DrawViewState α) : Option QtColor :=
  st.font_color

/-- The `stroke` property setter: repoints `current_pen`, records the flag. -/
def stroke_flag_set (st : DrawViewState α) (b : Bool) : DrawViewState α :=
  { st with current_pen := if b then PenRef.strokePenR else PenRef.noStrokePenR, stroke := b }

/-- The `fill` property setter: repoints `current_brush`, records the flag. -/
def fill_flag_set (st : DrawViewState α) (b : Bool) : DrawViewState α :=
  { st with current_brush := if b then BrushRef.fillBrushR else BrushRef.noFillBrushR, fill := b }

/-- `push_attributes`: read the six style properties (the `text_color` read
raises — `none` — when `__font_color` was never assigned, leaving the stack
untouched) and append the tuple to the attribute stack. -/
def push_attributes (st : DrawViewState α) : Option (DrawViewState α) :=
  (text_color_get st).map fun tc =>
    { st with attribute_stack := st.attribute_stack ++
        [(st.stroke_color, st.fill_color, st.stroke_width, tc, st.stroke, st.fill)] }

/-- `pop_attributes`: when the stack is non-empty, pop its last tuple, assign
the six style properties through their setters, then refresh the pen and brush
objects and the current references; no-op on an empty stack. -/
def pop_attributes (st : DrawViewState α) : DrawViewState α :=
  match st.attribute_stack.getLast? with
  | none => st
  | some (sc, fc, sw, tc, sk, fl) =>
    let st1 := { st with attribute_stack := st.attribute_stack.dropLast }
    let st2 := fill_flag_set (stroke_flag_set (text_color_set (stroke_width_set
      (fill_color_set (stroke_color_set st1 sc) fc) sw) tc) sk) fl
    { st2 with
      stroke_pen := (st2.stroke_pen.setColor st2.stroke_color).setWidth st2.stroke_width
      fill_brush := st2.fill_brush.setColor st2.fill_color
      text_pen := st2.text_pen.setColor tc
      current_pen := if st2.stroke then PenRef.strokePenR else PenRef.noStrokePenR
      current_brush := if st2.fill then BrushRef.fillBrushR else BrushRef.noFillBrushR }

def resolve_pen (st : DrawViewState α) : PenRef → QPen α
  | PenRef.strokePenR => st.stroke_pen
  | PenRef.noStrokePenR => no_stroke_pen

def resolve_brush (st : DrawViewState α) : BrushRef → QBrush
  | BrushRef.fillBrushR => st.fill_brush
  | BrushRef.noFillBrushR => no_fill_brush

/-- `painter()`: a painter carrying the current pen and current brush. -/
def painter (st : DrawViewState α) : QPen α × QBrush :=
  (resolve_pen st st.current_pen, resolve_brush st st.current_brush)

/-- A device-space shape handed to the host painter. -/
inductive Shape (α : Type) where
  | lineS (p q : QPointF α)
  | polygonS (pts : List (QPointF α))
  | rectS (r : QRectF α)
  | ellipseS (r : QRectF α)
  | textS (fontPixelSize : α) (pos : QPointF α) (s : String)
deriving DecidableEq

/-- One painter call: the pen and brush active on the painter plus the shape. -/
structure DrawCmd (α : Type) where
  pen : QPen α
  brush : QBrush
  shape : Shape α
deriving DecidableEq

/-- `polygon(points)`. -/
def polygon (st : DrawViewState α) (points : List (α × α)) : DrawCmd α :=
  ⟨(painter st).1, (painter st).2,
    Shape.polygonS (points.map fun q => st.transform.map ⟨q.1, q.2⟩)⟩

/-- `line(x1, y1, x2, y2)`. -/
def line (st : DrawViewState α) (x1 y1 x2 y2 : α) : DrawCmd α :=
  ⟨(painter st).1, (painter st).2,
    Shape.lineS (st.transform.map ⟨x1, y1⟩) (st.transform.map ⟨x2, y2⟩)⟩

/-- `rect(x, y, w, h)`: a `QRectF` spanned by the two mapped corners. -/
def rect (st : DrawViewState α) (x y w h : α) : DrawCmd α :=
  let p1 := st.transform.map ⟨x, y⟩
  let p2 := st.transform.map ⟨x + w, y + h⟩
  ⟨(painter st).1, (painter st).2, Shape.rectS ⟨p1.x, p1.y, p2.x - p1.x, p2.y - p1.y⟩⟩

/-- `circle(x, y, r)`. -/
def circle (st : DrawViewState α) (x y r : α) : DrawCmd α :=
  let p := st.transform.map ⟨x, y⟩
  let screen_r := r * |st.scale|
  ⟨(painter st).1, (painter st).2,
    Shape.ellipseS ⟨p.x - screen_r, p.y - screen_r, 2 * screen_r, 2 * screen_r⟩⟩

/-- `triangle(x, y, w, h)`. -/
def triangle (st : DrawViewState α) (x y w h : α) : DrawCmd α :=
  let p1 := st.transform.map ⟨x, y⟩
  let p2 := st.transform.map ⟨x + w / 2, y - h⟩
  let p3 := st.transform.map ⟨x - w / 2, y - h⟩
  ⟨(painter st).1, (painter st).2, Shape.polygonS [p1, p2, p3]⟩

/-- `text(x, y, text, font_size, hor_align, vert_align)`: drawn with a fresh
painter whose pen is set to `text_pen`. `text_width` and `text_height` are the
device-space metrics `QFontMetrics` reports for `txt` under the active font,
external measurements passed in as parameters. -/
def text (st : DrawViewState α) (x y : α) (txt : String) (font_size : α)
    (hor_align vert_align : String) (text_width text_height : α) : DrawCmd α :=
  let pixel := font_size * |st.scale|
  let p := st.transform.map ⟨x, y⟩
  let px := if hor_align = "right" then p.x - text_width
    else if hor_align = "center" then p.x - text_width / 2
    else p.x
  let py := if vert_align = "top" then p.y + text_height
    else if vert_align = "middle" then p.y + text_height / 2
    else p.y
  ⟨st.text_pen, default_brush, Shape.textS pixel ⟨px, py⟩ txt⟩

/-- `arrow(x1, y1, x2, y2, arrow_size, arrow_start, arrow_end)`: the shaft plus
up to two device-space V arrowheads per requested end. Drawn with a freshly
constructed `QPainter` (default pen and brush), not through `painter()`. -/
noncomputable def arrow (st : DrawViewState ℝ) (x1 y1 x2 y2 : ℝ) (arrow_size : ℝ)
    (arrow_start arrow_end : Bool) : List (DrawCmd ℝ) :=
  let p1 := st.transform.map ⟨x1, y1⟩
  let p2 := st.transform.map ⟨x2, y2⟩
  let shaft : DrawCmd ℝ := ⟨default_pen, default_brush, Shape.lineS p1 p2⟩
  let dx0 := p2.x - p1.x
  let dy0 := p2.y - p1.y
  let length := Real.sqrt (dx0 ^ 2 + dy0 ^ 2)
  shaft ::
    (if length = 0 then []
     else
      let dx := dx0 / length
      let dy := dy0 / length
      let s := arrow_size * |st.scale|
      (if arrow_end then
        [⟨default_pen, default_brush, Shape.lineS p2
            ⟨p2.x - dx * s + dy * s / 2, p2.y - dy * s - dx * s / 2⟩⟩,
         ⟨default_pen, default_brush, Shape.lineS p2
            ⟨p2.x - dx * s - dy * s / 2, p2.y - dy * s + dx * s / 2⟩⟩]
       else []) ++
      (if arrow_start then
        [⟨default_pen, default_brush, Shape.lineS p1
            ⟨p1.x + dx * s + dy * s / 2, p1.y + dy * s - dx * s / 2⟩⟩,
         ⟨default_pen, default_brush, Shape.lineS p1
            ⟨p1.x + dx * s - dy * s / 2, p1.y + dy * s + dx * s / 2⟩⟩]
       else []))

/-- `__init__`, with the construction-time widget size supplied by the host.
When that size is degenerate Python leaves `transform` and `scale` unassigned;
the placeholder identity and 1 stand for those unassigned attributes, and no
theorem about a fresh view reads them. -/
def initial (vw vh : ℕ) : DrawViewState α :=
  let st0 : DrawViewState α :=
    { world_bounds := ⟨-10, -10, 20, 20⟩
      viewport_width := vw
      viewport_height := vh
      transform := QTransform.identity
      scale := 1
      stroke_color := QtColor.black
      fill_color := QtColor.white
      stroke_width := 1
      text_color_init := QtColor.black
      font_color := none
      stroke := true
      fill := true
      stroke_pen := ⟨QtColor.black, 1, PenStyle.solidLine⟩
      fill_brush := ⟨QtColor.white, BrushStyle.solidPattern⟩
      current_pen := PenRef.strokePenR
      current_brush := BrushRef.fillBrushR
      text_pen := ⟨QtColor.black, 1, PenStyle.solidLine⟩
      attribute_stack := [] }
  update_transform st0

/-- The six style properties the spec's `StyleState` names, the text color read
through its getter. -/
def style_of (st : DrawViewState α) : QtColor × QtColor × α × Option QtColor × Bool × Bool :=
  (st.stroke_color, st.fill_color, st.stroke_width, text_color_get st, st.stroke, st.fill)

/-- A concrete view over `ℚ`: 400 by 400 viewport, world bounds 20 wide and
10 high centered at the origin. -/
def st400 : DrawViewState ℚ := set_world_bounds (initial 400 400) (-10) (-5) 20 10

/-- The same concrete view over `ℝ` for the arrow primitive. -/
noncomputable def st400R : DrawViewState ℝ := set_world_bounds (initial 400 400) (-10) (-5) 20 10

/-- `st400R` with stroking disabled. -/
noncomputable def stNoStrokeR : DrawViewState ℝ := stroke_flag_set st400R false

/-- `st400` after setting a text color, so that `push_attributes` succeeds. -/
def stW : DrawViewState ℚ := text_color_set st400 QtColor.red

/-- `stW` after a successful `push_attributes`. -/
def stW1 : DrawViewState ℚ := (push_attributes stW).getD stW

/-- The vertex list the spec's sentence about `triangle` describes: base
centered at `(x, y)` with half-width `w/2`, apex at `(x, y - h)`, mapped
vertex-by-vertex. Stated from the spec's words, for comparison with the
`triangle` definition taken from the source. -/
def triangle_spec_vertices (st : DrawViewState α) (x y w h : α) : List (QPointF α) :=
  [st.transform.map ⟨x - w / 2, y⟩, st.transform.map ⟨x + w / 2, y⟩,
   st.transform.map ⟨x, y - h⟩]

/-- The vertices a polygon command hands to the painter. -/
def shape_points : Shape α → List (QPointF α)
  | Shape.polygonS pts => pts
  | _ => []

/-- `__update_transform` never touches `__font_color`. -/
theorem update_transform_font_color (st : DrawViewState α) :
    (update_transform st).font_color = st.font_color := by
  unfold update_transform
  split <;> rfl

/-- `__update_transform` never touches the attribute stack. -/
theorem update_transform_attribute_stack (st : DrawViewState α) :
    (update_transform st).attribute_stack = st.attribute_stack := by
  unfold update_transform
  split <;> rfl

/-- On a non-degenerate viewport, `__update_transform` only replaces `scale`
and `transform`, with the documented scale and diagonal affine matrix. -/
theorem update_transform_formula (st : DrawViewState α) (s : α)
    (hvw : st.viewport_width ≠ 0) (hvh : st.viewport_height ≠ 0)
    (hs : s = min ((st.viewport_width : α) / st.world_bounds.w)
      ((st.viewport_height : α) / st.world_bounds.h)) :
    update_transform st =
      { st with
        scale := s
        transform := ⟨s, -s, (st.viewport_width : α) / 2 - s * st.world_bounds.center.x,
          (st.viewport_height : α) / 2 + s * st.world_bounds.center.y⟩ } := by
  subst hs
  unfold update_transform
  rw [if_neg (by simp [hvw, hvh])]
  simp only [QRectF.width, QRectF.height, QTransform.identity, QTransform.translate,
    QTransform.scaleXY]
  congr 2 <;> ring

/-- C4: with a zero viewport dimension (widget dimensions are non-negative
integers, so zero is the only non-positive value), `__update_transform`
returns immediately and the whole state — in particular the previously
computed transform and scale — is untouched; no division is reached. -/
theorem update_transform_degenerate_noop (st : DrawViewState α)
    (h : st.viewport_width = 0 ∨ st.viewport_height = 0) :
    update_transform st = st := by
  unfold update_transform
  rw [if_pos h]

/-- C4 witness: a view constructed with a 400 by 0 viewport keeps its state
unchanged across a transform recompute. -/
theorem update_transform_degenerate_noop_witness :
    update_transform (initial 400 0 : DrawViewState ℚ) = initial 400 0 :=
  update_transform_degenerate_noop (initial 400 0) (Or.inr rfl)

/-- C9: `pop_attributes` on an empty attribute stack is a no-op: the state is
returned unchanged and nothing is raised. -/
theorem pop_attributes_empty_noop (st : DrawViewState α) (h : st.attribute_stack = []) :
    pop_attributes st = st := by
  unfold pop_attributes
  rw [h]
  rfl

/-- C9 witness: a fresh view, whose stack is empty, is unchanged by
`pop_attributes`. -/
theorem pop_attributes_empty_noop_witness :
    pop_attributes (initial 400 400 : DrawViewState ℚ) = initial 400 400 :=
  pop_attributes_empty_noop (initial 400 400) rfl

/-- C10: on a fresh view the `text_color` getter raises (`none`): it reads
`__font_color`, assigned only by the setter, while `__init__` wrote the
separate `__text_color` field; hence the first `push_attributes` raises too
(`none`). Once `text_color` has been set, reads return the value last set. -/
theorem text_color_read_unset_raises :
    (∀ vw vh : ℕ, text_color_get (initial vw vh : DrawViewState ℚ) = none ∧
      push_attributes (initial vw vh : DrawViewState ℚ) = none) ∧
    ∀ (st : DrawViewState ℚ) (c : QtColor), text_color_get (text_color_set st c) = some c := by
  have hfc : ∀ vw vh : ℕ, text_color_get (initial vw vh : DrawViewState ℚ) = none := by
    intro vw vh
    show (initial vw vh : DrawViewState ℚ).font_color = none
    rw [initial, update_transform_font_color]
  exact ⟨fun vw vh => ⟨hfc vw vh, by rw [push_attributes, hfc vw vh]; rfl⟩,
    fun st c => rfl⟩

/-- The style tuple `pop_attributes` leaves behind is the tuple at the top of
the stack. -/
theorem style_of_pop_attributes (st : DrawViewState α) (sc fc : QtColor) (sw : α)
    (tc : QtColor) (sk fl : Bool)
    (h : st.attribute_stack.getLast? = some (sc, fc, sw, tc, sk, fl)) :
    style_of (pop_attributes st) = (sc, fc, sw, some tc, sk, fl) := by
  unfold pop_attributes
  rw [h]
  rfl

/-- C3: a successful `push_attributes` followed immediately by
`pop_attributes` restores all six style properties, and with a
`stroke_color` mutation in between, the post-pop stroke color equals the
pre-push value while the five other properties are also back at their
pre-push values, untouched by the stroke mutation. -/
theorem push_pop_roundtrip (st st1 : DrawViewState α) (h : push_attributes st = some st1) :
    style_of (pop_attributes st1) = style_of st ∧
    ∀ c, style_of (pop_attributes (stroke_color_set st1 c)) = style_of st := by
  cases hfc : st.font_color with
  | none => rw [push_attributes, text_color_get, hfc] at h; exact absurd h (by simp)
  | some tc =>
    rw [push_attributes, text_color_get, hfc, Option.map_some', Option.some.injEq] at h
    subst h
    have hstyle : style_of st = (st.stroke_color, st.fill_color, st.stroke_width,
        some tc, st.stroke, st.fill) := by
      rw [style_of, text_color_get, hfc]
    have hlast : ∀ st2 : DrawViewState α,
        st2.attribute_stack = st.attribute_stack ++
          [(st.stroke_color, st.fill_color, st.stroke_width, tc, st.stroke, st.fill)] →
        style_of (pop_attributes st2) = style_of st := by
      intro st2 h2
      rw [style_of_pop_attributes st2 _ _ _ _ _ _ (by rw [h2]; exact List.getLast?_concat _),
        hstyle]
    exact ⟨hlast _ rfl, fun c => hlast _ rfl⟩

/-- C3 witness: on the concrete view `stW` (text color set to red), push then
pop restores the style tuple, also when the stroke color is set to white
between the push and the pop. -/
theorem push_pop_roundtrip_witness :
    style_of (pop_attributes stW1) = style_of stW ∧
    style_of (pop_attributes (stroke_color_set stW1 QtColor.white)) = style_of stW :=
  ⟨(push_pop_roundtrip stW stW1 rfl).1, (push_pop_roundtrip stW stW1 rfl).2 QtColor.white⟩

/-- The state `st400` is recomputed from: fresh view, 400 by 400 viewport,
world bounds (-10, -5, 20, 10). -/
def stPre : DrawViewState ℚ := { initial 400 400 with world_bounds := ⟨-10, -5, 20, 10⟩ }

/-- C1: with strictly positive world dimensions and viewport dimensions, and
the transform recomputed under them, `window_to_world` is a two-sided exact
inverse of `world_to_window` on every point (exact arithmetic here standing
for equality up to floating-point tolerance). -/
theorem window_world_roundtrip (st : DrawViewState α)
    (hw : 0 < st.world_bounds.w) (hh : 0 < st.world_bounds.h)
    (hvw : 0 < st.viewport_width) (hvh : 0 < st.viewport_height) (x y : α) :
    window_to_world (update_transform st)
      (world_to_window (update_transform st) x y).x
      (world_to_window (update_transform st) x y).y = ⟨x, y⟩ := by
  have hs : (0 : α) < min ((st.viewport_width : α) / st.world_bounds.w)
      ((st.viewport_height : α) / st.world_bounds.h) :=
    lt_min (div_pos (by exact_mod_cast hvw) hw) (div_pos (by exact_mod_cast hvh) hh)
  rw [update_transform_formula st _ (Nat.pos_iff_ne_zero.mp hvw)
    (Nat.pos_iff_ne_zero.mp hvh) rfl]
  simp only [window_to_world, world_to_window, QTransform.map, QTransform.inverted]
  rw [if_neg (by push_neg; exact ⟨hs.ne', neg_ne_zero.mpr hs.ne'⟩)]
  have hs0 : min ((st.viewport_width : α) / st.world_bounds.w)
      ((st.viewport_height : α) / st.world_bounds.h) ≠ 0 := hs.ne'
  ext
  · show 1 / _ * _ + _ = x
    field_simp
    ring
  · show 1 / _ * _ + _ = y
    field_simp
    ring

/-- C1 witness: on the concrete 400 by 400 view over the 20 by 10 world, the
round trip returns the world point (3, 4) exactly. -/
theorem window_world_roundtrip_witness :
    window_to_world (update_transform stPre)
      (world_to_window (update_transform stPre) 3 4).x
      (world_to_window (update_transform stPre) 3 4).y = ⟨3, 4⟩ :=
  window_world_roundtrip stPre (by decide) (by decide) (by decide) (by decide) 3 4

/-- C2: after a recompute with strictly positive world and viewport
dimensions, the scale is min(viewport.width / world.width, viewport.height /
world.height); the composed transform — translate to the viewport center,
scale by (scale, -scale), translate by minus the world center — sends (x, y)
to (vw/2 + scale·(x - cx), vh/2 - scale·(y - cy)), so the world center lands
on the viewport center with Y flipped; and `circle` draws an axis-aligned
ellipse rect of half-width r·|scale| centered on the mapped center, i.e.
device radius r·|scale|. -/
theorem scale_and_circle_spec (st : DrawViewState α)
    (hw : 0 < st.world_bounds.w) (hh : 0 < st.world_bounds.h)
    (hvw : 0 < st.viewport_width) (hvh : 0 < st.viewport_height) :
    (update_transform st).scale = min ((st.viewport_width : α) / st.world_bounds.w)
      ((st.viewport_height : α) / st.world_bounds.h) ∧
    (∀ x y : α, (update_transform st).transform.map ⟨x, y⟩ =
      ⟨(st.viewport_width : α) / 2 +
          (update_transform st).scale * (x - st.world_bounds.center.x),
        (st.viewport_height : α) / 2 -
          (update_transform st).scale * (y - st.world_bounds.center.y)⟩) ∧
    (update_transform st).transform.map st.world_bounds.center =
      ⟨(st.viewport_width : α) / 2, (st.viewport_height : α) / 2⟩ ∧
    ∀ x y r : α, circle (update_transform st) x y r =
      ⟨(painter (update_transform st)).1, (painter (update_transform st)).2,
        Shape.ellipseS
          ⟨((update_transform st).transform.map ⟨x, y⟩).x - r * |(update_transform st).scale|,
            ((update_transform st).transform.map ⟨x, y⟩).y - r * |(update_transform st).scale|,
            2 * (r * |(update_transform st).scale|), 2 * (r * |(update_transform st).scale|)⟩⟩ := by
  rw [update_transform_formula st _ (Nat.pos_iff_ne_zero.mp hvw)
    (Nat.pos_iff_ne_zero.mp hvh) rfl]
  refine ⟨rfl, fun x y => ?_, ?_, fun x y r => rfl⟩
  · simp only [QTransform.map]
    ext <;> ring
  · simp only [QTransform.map]
    ext <;> ring

/-- C2 witness: world bounds 20 wide by 10 high in a 400 by 400 viewport give
scale min(400/20, 400/10) = 20, and a circle of world radius 1 at the origin
is drawn as the device rect (180, 180, 40, 40): device radius 20, centered on
the mapped world center (200, 200). -/
theorem scale_and_circle_spec_witness :
    st400.scale = 20 ∧
    circle st400 0 0 1 =
      ⟨(painter st400).1, (painter st400).2, Shape.ellipseS ⟨180, 180, 40, 40⟩⟩ := by
  have h := scale_and_circle_spec stPre (by decide) (by decide) (by decide) (by decide)
  have hvw : stPre.viewport_width = 400 := rfl
  have hvh : stPre.viewport_height = 400 := rfl
  have hwb : stPre.world_bounds = ⟨-10, -5, 20, 10⟩ := rfl
  have hsc : (update_transform stPre).scale = 20 := by
    rw [h.1, hvw, hvh, hwb]
    norm_num [min_def]
  have hmap : (update_transform stPre).transform.map ⟨0, 0⟩ = ⟨200, 200⟩ := by
    rw [h.2.1 0 0, hsc, hvw, hvh, hwb]
    norm_num [QRectF.center]
  constructor
  · exact hsc
  · show circle (update_transform stPre) 0 0 1 = _
    rw [h.2.2.2 0 0 1, hmap, hsc]
    norm_num
    exact ⟨rfl, rfl⟩

/-- The concrete view `st400` carries scale 20. -/
theorem st400_scale : st400.scale = 20 := by
  show (update_transform stPre).scale = 20
  rw [update_transform_formula stPre _ (by decide) (by decide) rfl]
  norm_num [show stPre.viewport_width = 400 from rfl, show stPre.viewport_height = 400 from rfl,
    show stPre.world_bounds = ⟨-10, -5, 20, 10⟩ from rfl, min_def]

/-- The concrete view `st400` carries the transform (x, y) ↦ (20x + 200, -20y + 200). -/
theorem st400_transform : st400.transform = ⟨20, -20, 200, 200⟩ := by
  show (update_transform stPre).transform = _
  rw [update_transform_formula stPre _ (by decide) (by decide) rfl]
  norm_num [show stPre.viewport_width = 400 from rfl, show stPre.viewport_height = 400 from rfl,
    show stPre.world_bounds = ⟨-10, -5, 20, 10⟩ from rfl, min_def, QRectF.center]

/-- C5 counterexample: with stroking disabled (so the claim demands every
stroke use no pen), `arrow` still draws with the fresh painter's default
solid pen: `arrow` does not apply the current effective style, because it
builds its painter with `QPainter(self)` instead of `self.painter()`. -/
theorem arrow_ignores_current_style :
    ¬ ∀ c ∈ arrow stNoStrokeR 0 0 1 0 5 true true, c.pen = no_stroke_pen := by
  intro hall
  have hmem : (⟨default_pen, default_brush,
      Shape.lineS (stNoStrokeR.transform.map ⟨0, 0⟩) (stNoStrokeR.transform.map ⟨1, 0⟩)⟩ :
        DrawCmd ℝ) ∈ arrow stNoStrokeR 0 0 1 0 5 true true := by
    simp only [arrow]
    exact List.mem_cons_self _ _
  have hpen := hall _ hmem
  simp [default_pen, no_stroke_pen] at hpen

/-- C5 amended: the `painter()`-based primitives — line, rect, circle,
triangle, polygon — stroke with the current stroke pen exactly when stroke is
enabled (the NoPen pen otherwise) and fill with the current fill brush exactly
when fill is enabled (the NoBrush brush otherwise); `arrow` is the exception:
it draws on a freshly constructed painter with the default pen and brush,
ignoring the current style. The hypotheses state the reference invariant the
setters and `pop_attributes` maintain for `current_pen`/`current_brush`. -/
theorem painter_primitives_effective_style (st : DrawViewState α)
    (hp : st.current_pen = if st.stroke then PenRef.strokePenR else PenRef.noStrokePenR)
    (hb : st.current_brush = if st.fill then BrushRef.fillBrushR else BrushRef.noFillBrushR) :
    (∀ x1 y1 x2 y2 : α,
      (line st x1 y1 x2 y2).pen = (if st.stroke then st.stroke_pen else no_stroke_pen) ∧
      (line st x1 y1 x2 y2).brush = (if st.fill then st.fill_brush else no_fill_brush)) ∧
    (∀ x y w h : α,
      (rect st x y w h).pen = (if st.stroke then st.stroke_pen else no_stroke_pen) ∧
      (rect st x y w h).brush = (if st.fill then st.fill_brush else no_fill_brush)) ∧
    (∀ x y r : α,
      (circle st x y r).pen = (if st.stroke then st.stroke_pen else no_stroke_pen) ∧
      (circle st x y r).brush = (if st.fill then st.fill_brush else no_fill_brush)) ∧
    (∀ x y w h : α,
      (triangle st x y w h).pen = (if st.stroke then st.stroke_pen else no_stroke_pen) ∧
      (triangle st x y w h).brush = (if st.fill then st.fill_brush else no_fill_brush)) ∧
    (∀ pts : List (α × α),
      (polygon st pts).pen = (if st.stroke then st.stroke_pen else no_stroke_pen) ∧
      (polygon st pts).brush = (if st.fill then st.fill_brush else no_fill_brush)) := by
  have hpen : (painter st).1 = (if st.stroke then st.stroke_pen else no_stroke_pen) := by
    rw [painter, hp]
    cases st.stroke <;> rfl
  have hbrush : (painter st).2 = (if st.fill then st.fill_brush else no_fill_brush) := by
    rw [painter, hb]
    cases st.fill <;> rfl
  exact ⟨fun x1 y1 x2 y2 => ⟨hpen, hbrush⟩, fun x y w h => ⟨hpen, hbrush⟩,
    fun x y r => ⟨hpen, hbrush⟩, fun x y w h => ⟨hpen, hbrush⟩, fun pts => ⟨hpen, hbrush⟩⟩

/-- C5 witness: on the concrete view (stroke and fill enabled), `line` draws
with the stroke pen and the fill brush. -/
theorem painter_primitives_effective_style_witness :
    (line st400 0 0 1 1).pen = (if st400.stroke then st400.stroke_pen else no_stroke_pen) ∧
    (line st400 0 0 1 1).brush = (if st400.fill then st400.fill_brush else no_fill_brush) :=
  (painter_primitives_effective_style st400 rfl rfl).1 0 0 1 1

/-- C7 counterexample: on the concrete view, `triangle(0, 0, 2, 1)` draws a
polygon containing the device vertex (220, 220) — the mapped world point
(1, -1) — which is not a vertex of the triangle the claim describes (base
centered at (0, 0), apex at (0, -1)); so the drawn vertex multisets differ. -/
theorem triangle_claim_counterexample :
    (⟨220, 220⟩ : QPointF ℚ) ∈ shape_points (triangle st400 0 0 2 1).shape ∧
    (⟨220, 220⟩ : QPointF ℚ) ∉ triangle_spec_vertices st400 0 0 2 1 ∧
    (↑(shape_points (triangle st400 0 0 2 1).shape) : Multiset (QPointF ℚ)) ≠
      ↑(triangle_spec_vertices st400 0 0 2 1) := by
  have h1 : (⟨220, 220⟩ : QPointF ℚ) ∈ shape_points (triangle st400 0 0 2 1).shape := by
    norm_num [triangle, shape_points, st400_transform, QTransform.map, QPointF.mk.injEq,
      List.mem_cons]
  have h2 : (⟨220, 220⟩ : QPointF ℚ) ∉ triangle_spec_vertices st400 0 0 2 1 := by
    norm_num [triangle_spec_vertices, st400_transform, QTransform.map, QPointF.mk.injEq,
      List.mem_cons]
  refine ⟨h1, h2, fun heq => h2 ?_⟩
  rw [← Multiset.mem_coe, ← heq, Multiset.mem_coe]
  exact h1

/-- C7 amended: `triangle(x, y, w, h)` draws, vertex-by-vertex through the
world-to-device transform, the isoceles triangle whose apex is at world point
(x, y) and whose base is centered at world point (x, y - h) with base
half-width w/2, as a polygon under the current stroke and fill style. -/
theorem triangle_apex_at_anchor (st : DrawViewState α) (x y w h : α) :
    triangle st x y w h =
      ⟨(painter st).1, (painter st).2,
        Shape.polygonS [st.transform.map ⟨x, y⟩, st.transform.map ⟨x + w / 2, y - h⟩,
          st.transform.map ⟨x - w / 2, y - h⟩]⟩ := rfl

/-- C8: `text` sets the font pixel size to fontSize·|scale| and draws at the
mapped anchor shifted by -width (right align) or -width/2 (center align)
horizontally and by +height (top align) or +height/2 (middle align)
vertically, with no shift for left/bottom; in particular on the concrete view
the anchor (0, 0) maps to device (200, 200) and, with measured width 40 and
height 12 under center/middle alignment, the string is drawn at (180, 206). -/
theorem text_alignment :
    (∀ (st : DrawViewState ℚ) (x y : ℚ) (txt : String) (fs : ℚ) (ha va : String) (tw th : ℚ),
      text st x y txt fs ha va tw th =
        ⟨st.text_pen, default_brush,
          Shape.textS (fs * |st.scale|)
            ⟨(st.transform.map ⟨x, y⟩).x -
                (if ha = "right" then tw else if ha = "center" then tw / 2 else 0),
              (st.transform.map ⟨x, y⟩).y +
                (if va = "top" then th else if va = "middle" then th / 2 else 0)⟩ txt⟩) ∧
    text st400 0 0 "M" 12 "center" "middle" 40 12 =
      ⟨st400.text_pen, default_brush, Shape.textS 240 ⟨180, 206⟩ "M"⟩ := by
  have hgen : ∀ (st : DrawViewState ℚ) (x y : ℚ) (txt : String) (fs : ℚ) (ha va : String)
      (tw th : ℚ), text st x y txt fs ha va tw th =
        ⟨st.text_pen, default_brush,
          Shape.textS (fs * |st.scale|)
            ⟨(st.transform.map ⟨x, y⟩).x -
                (if ha = "right" then tw else if ha = "center" then tw / 2 else 0),
              (st.transform.map ⟨x, y⟩).y +
                (if va = "top" then th else if va = "middle" then th / 2 else 0)⟩ txt⟩ := by
    intro st x y txt fs ha va tw th
    simp only [text]
    split_ifs <;> norm_num
  refine ⟨hgen, ?_⟩
  rw [hgen]
  norm_num [st400_scale, st400_transform, QTransform.map]
  exact ⟨by rw [if_neg (by decide)]; norm_num, by rw [if_neg (by decide)]; norm_num⟩

/-- C6: `arrow` draws the shaft as the mapped device-space segment; when the
device-space direction vector between the mapped endpoints has zero Euclidean
length, all arrowhead construction is skipped and only the shaft is drawn;
otherwise, with s = headSize·|scale| and the normalized direction (ux, uy),
each requested end receives exactly two extra segments whose far points are
offset s back along the direction and plus or minus s/2 along the
perpendicular (uy, -ux) — a V opening away from the segment's far end. -/
theorem arrow_geometry (st : DrawViewState ℝ) (x1 y1 x2 y2 hs : ℝ) (astart aend : Bool)
    (p1 p2 : QPointF ℝ) (L s : ℝ)
    (hp1 : p1 = st.transform.map ⟨x1, y1⟩) (hp2 : p2 = st.transform.map ⟨x2, y2⟩)
    (hL : L = Real.sqrt ((p2.x - p1.x) ^ 2 + (p2.y - p1.y) ^ 2))
    (hsz : s = hs * |st.scale|) :
    (L = 0 → arrow st x1 y1 x2 y2 hs astart aend =
      [⟨default_pen, default_brush, Shape.lineS p1 p2⟩]) ∧
    (L ≠ 0 → arrow st x1 y1 x2 y2 hs astart aend =
      ⟨default_pen, default_brush, Shape.lineS p1 p2⟩ ::
        ((if aend then
            [⟨default_pen, default_brush, Shape.lineS p2
                ⟨p2.x - s * ((p2.x - p1.x) / L) + s / 2 * ((p2.y - p1.y) / L),
                  p2.y - s * ((p2.y - p1.y) / L) - s / 2 * ((p2.x - p1.x) / L)⟩⟩,
              ⟨default_pen, default_brush, Shape.lineS p2
                ⟨p2.x - s * ((p2.x - p1.x) / L) - s / 2 * ((p2.y - p1.y) / L),
                  p2.y - s * ((p2.y - p1.y) / L) + s / 2 * ((p2.x - p1.x) / L)⟩⟩]
          else []) ++
          (if astart then
            [⟨default_pen, default_brush, Shape.lineS p1
                ⟨p1.x + s * ((p2.x - p1.x) / L) + s / 2 * ((p2.y - p1.y) / L),
                  p1.y + s * ((p2.y - p1.y) / L) - s / 2 * ((p2.x - p1.x) / L)⟩⟩,
              ⟨default_pen, default_brush, Shape.lineS p1
                ⟨p1.x + s * ((p2.x - p1.x) / L) - s / 2 * ((p2.y - p1.y) / L),
                  p1.y + s * ((p2.y - p1.y) / L) + s / 2 * ((p2.x - p1.x) / L)⟩⟩]
          else []))) := by
  simp only [arrow, ← hp1, ← hp2, ← hL, ← hsz]
  constructor
  · intro h0
    rw [if_pos h0]
  · intro h0
    rw [if_neg h0]
    have e1 : p2.x - (p2.x - p1.x) / L * s + (p2.y - p1.y) / L * s / 2
        = p2.x - s * ((p2.x - p1.x) / L) + s / 2 * ((p2.y - p1.y) / L) := by ring
    have e2 : p2.y - (p2.y - p1.y) / L * s - (p2.x - p1.x) / L * s / 2
        = p2.y - s * ((p2.y - p1.y) / L) - s / 2 * ((p2.x - p1.x) / L) := by ring
    have e3 : p2.x - (p2.x - p1.x) / L * s - (p2.y - p1.y) / L * s / 2
        = p2.x - s * ((p2.x - p1.x) / L) - s / 2 * ((p2.y - p1.y) / L) := by ring
    have e4 : p2.y - (p2.y - p1.y) / L * s + (p2.x - p1.x) / L * s / 2
        = p2.y - s * ((p2.y - p1.y) / L) + s / 2 * ((p2.x - p1.x) / L) := by ring
    have e5 : p1.x + (p2.x - p1.x) / L * s + (p2.y - p1.y) / L * s / 2
        = p1.x + s * ((p2.x - p1.x) / L) + s / 2 * ((p2.y - p1.y) / L) := by ring
    have e6 : p1.y + (p2.y - p1.y) / L * s - (p2.x - p1.x) / L * s / 2
        = p1.y + s * ((p2.y - p1.y) / L) - s / 2 * ((p2.x - p1.x) / L) := by ring
    have e7 : p1.x + (p2.x - p1.x) / L * s - (p2.y - p1.y) / L * s / 2
        = p1.x + s * ((p2.x - p1.x) / L) - s / 2 * ((p2.y - p1.y) / L) := by ring
    have e8 : p1.y + (p2.y - p1.y) / L * s + (p2.x - p1.x) / L * s / 2
        = p1.y + s * ((p2.y - p1.y) / L) + s / 2 * ((p2.x - p1.x) / L) := by ring
    rw [e1, e2, e3, e4, e5, e6, e7, e8]

/-- C6 witness: `arrow(5, 5, 5, 5, ...)` on the concrete view maps both
endpoints to the same device point, the direction length is zero, and only
the shaft is drawn — no arrowhead segments. -/
theorem arrow_geometry_witness :
    arrow st400R 5 5 5 5 5 true true =
      [⟨default_pen, default_brush,
        Shape.lineS (st400R.transform.map ⟨5, 5⟩) (st400R.transform.map ⟨5, 5⟩)⟩] :=
  (arrow_geometry st400R 5 5 5 5 5 true true _ _ _ _ rfl rfl rfl rfl).1 (by simp)

end DrawView
